import Mathlib

/-!
Verification of the feature-schema / preprocessing / inference pipeline of
`src/app.js` (an ONNXRuntime-Web inference client).

Shallow embedding conventions:
* JavaScript numbers are idealised as rationals (`ℚ`).  The only places the
  code can produce a non-finite number are `parseFloat` (NaN on a
  non-numeric token) and out-of-bounds array reads; `parseFloat` is
  modelled as `String → Option ℚ` with `none` standing for NaN, and
  out-of-bounds reads are modelled with `List.getD` (every claim that
  touches an indexed read carries an in-bounds hypothesis).
* The external model runner (`ort.InferenceSession.run`) is an opaque
  collaborator: it is a parameter of the prediction pipeline, a function
  from the feed map to either a failure message or a named output map.
* DOM access is a parameter as well: the per-feature number inputs are a
  function from element id to the field's parsed numeric value (`none`
  for an empty field; a `type="number"` input holds a numeric or empty
  string, and `parseFloat(value || "0")` maps the empty field to `0`).
-/

/-- The optional sidecar descriptor (`meta.json`).  `Array.isArray` checks in
the source correspond to the `Option` being `some`. -/
structure Meta where
  feature_names : Option (List String)
  scaler_mean : Option (List ℚ)
  scaler_scale : Option (List ℚ)
  best_model_name : Option String

/-- Normalisation parameters, built at `init` (src/app.js:65-70) only when
both `meta.scaler_mean` and `meta.scaler_scale` are arrays. -/
structure Scaler where
  mean : List ℚ
  scale : List ℚ

/-- Descriptor feature names: the check
`meta && Array.isArray(meta.feature_names)` in the source corresponds to
this `Option` being `some`. -/
def descNames (meta : Option Meta) : Option (List String) :=
  meta.bind Meta.feature_names

/-- Synthesized fallback feature names `f1`, …, `fn`, from
`Array.from` over the configured count (src/app.js:58). -/
def synthNames (n : ℕ) : List String :=
  (List.range n).map (fun i => "f" ++ toString (i + 1))

/-- Feature-name resolution from `init` (src/app.js:53-62), translated
branch by branch.  The static fallback count is a JavaScript number, so it
is a `ℚ` here and the `Number.isInteger` guard is the `den = 1` test. -/
def resolveFeatureNames (meta : Option Meta) (cfgNames : List String)
    (cfgCount : ℚ) : List String :=
  match descNames meta with
  | some ns =>
    if 0 < ns.length then ns
    else if 0 < cfgNames.length then cfgNames
    else if cfgCount.den = 1 ∧ 0 < cfgCount then synthNames cfgCount.num.toNat
    else []
  | none =>
    if 0 < cfgNames.length then cfgNames
    else if cfgCount.den = 1 ∧ 0 < cfgCount then synthNames cfgCount.num.toNat
    else []

/-- Modelled from the spec's words (§4.2), for comparison with
`resolveFeatureNames`: "Precedence, evaluated in order, first matching
branch wins: 1. Descriptor present and supplies a non-empty feature-name
list → use it verbatim … 2. Static fallback name list is non-empty → use it
verbatim. 3. Static fallback count is a positive integer → synthesize names
… 4. Otherwise → empty list." -/
def featureSchemaSpec (descriptor : Option (List String))
    (staticNames : List String) (staticCount : ℚ) : List String :=
  match descriptor with
  | some ns =>
    if ns ≠ [] then ns
    else if staticNames ≠ [] then staticNames
    else if staticCount.den = 1 ∧ 0 < staticCount then
      synthNames staticCount.num.toNat
    else []
  | none =>
    if staticNames ≠ [] then staticNames
    else if staticCount.den = 1 ∧ 0 < staticCount then
      synthNames staticCount.num.toNat
    else []

/-- Classified per-request errors of `predict` (src/app.js:145-190).  The
source throws `Error` objects whose messages are rebuilt verbatim by
`errorMessage` below; the constructors carry exactly the data the messages
interpolate. -/
inductive PredictError where
  | emptyInput : PredictError
  | shapeMismatch (expected got : ℕ) : PredictError
  | scalerMismatch : PredictError
  | missingOutput (name : String) : PredictError
  | runnerFailure (msg : String) : PredictError
deriving DecidableEq, Repr

/-- The exact message text the source attaches to each thrown error
(src/app.js:152,156,163,176); a runner failure propagates its own message
verbatim. -/
def errorMessage : PredictError → String
  | .emptyInput => "No input values provided."
  | .shapeMismatch expected got =>
      "Expected " ++ toString expected ++ " features, got " ++ toString got ++ "."
  | .scalerMismatch => "Scaler length does not match feature count."
  | .missingOutput name =>
      "Output named \"" ++ name ++ "\" not found. Check OUTPUT_NAME."
  | .runnerFailure msg => msg

/-- Both length-mismatch rejections fall under the spec's single
`ShapeMismatch` taxon (spec §4.3 calls the scaler-length rejection
`ShapeMismatch`, §4.4 the named-mode one). -/
def PredictError.isShapeMismatch : PredictError → Bool
  | .shapeMismatch _ _ => true
  | .scalerMismatch => true
  | _ => false

/-- A numeric tensor: `new ort.Tensor("float32", data, dims)` idealised
over `ℚ` (32-bit float rounding is not modelled; no claim depends on it). -/
structure Tensor where
  dims : List ℕ
  data : List ℚ

/-- The external model runner (`session.run`): from the feed map (name →
tensor) to either an opaque failure message or a named output map.  It is
an arbitrary collaborator, a parameter of the pipeline. -/
def Runner : Type :=
  (String → Option Tensor) → Except String (String → Option Tensor)

/-- The `INPUT_NAME` configuration constant (src/app.js:8). -/
def INPUT_NAME : String := "input"

/-- The `OUTPUT_NAME` configuration constant (src/app.js:9). -/
def OUTPUT_NAME : String := "output"

/-- Z-score normalisation, `values.map((v, i) => (v - mean[i]) / scale[i])`
(src/app.js:124-126).  An out-of-bounds read (`undefined` in the source,
making the element NaN) is modelled by the `getD` default; every claim
about this function carries in-bounds hypotheses. -/
def zscoreRow (values mean scale : List ℚ) : List ℚ :=
  values.enum.map (fun p => (p.2 - mean.getD p.1 0) / scale.getD p.1 0)

/-- Rounding to the nearest integer with ties to the larger integer, as the
`toFixed` specification demands for the nonnegative arguments this model
applies it to.  Phrased on the explicit numerator and denominator (this is
the floor of `x + 1/2` for `x ≥ 0`) so the definition kernel-reduces. -/
def jsRound (x : ℚ) : ℤ := (2 * x.num + x.den) / (2 * x.den)

/-- Six-character decimal rendering of `m % 10^6`, most significant digit
first: the fractional block of `toFixed(6)`. -/
def frac6 (m : ℕ) : String :=
  String.mk [Nat.digitChar (m / 100000 % 10), Nat.digitChar (m / 10000 % 10),
    Nat.digitChar (m / 1000 % 10), Nat.digitChar (m / 100 % 10),
    Nat.digitChar (m / 10 % 10), Nat.digitChar (m % 10)]

/-- Fixed-point rendering of a nonnegative rational with six decimal
places: integer part, `"."`, six fractional digits. -/
def toFixed6Abs (x : ℚ) : String :=
  toString (jsRound (x * 1000000) / 1000000) ++ "." ++
    frac6 (jsRound (x * 1000000) % 1000000).toNat

/-- Model of the `Number(v).toFixed(6)` builtin used at src/app.js:179: a
sign, an integer part, and exactly six fractional digits. -/
def toFixed6 (x : ℚ) : String :=
  if x < 0 then "-" ++ toFixed6Abs (-x) else toFixed6Abs x

/-- Model of `Array.prototype.join(sep)`. -/
def joinSep (sep : String) : List String → String
  | [] => ""
  | [a] => a
  | a :: b :: rest => a ++ sep ++ joinSep sep (b :: rest)

/-- The decoded display text before the sentinel substitution:
`Array.from(out.data).map(v => Number(v).toFixed(6)).join(", ")`
(src/app.js:179). -/
def decodeOutput (data : List ℚ) : String :=
  joinSep ", " (data.map toFixed6)

/-- The displayed result, `predText || "—"` (src/app.js:184): the sentinel
placeholder replaces an empty decode. -/
def displayText (data : List ℚ) : String :=
  if decodeOutput data = "" then "—" else decodeOutput data

/-- The feed map passed to the runner (src/app.js:167-171): the `[1, n]`
single-row tensor built from the final row, bound to the configured input
name. -/
def feedsFor (inputName : String) (row : List ℚ) : String → Option Tensor :=
  fun n => if n = inputName then some ⟨[1, row.length], row⟩ else none

/-- The inference-and-decode tail of `predict` (src/app.js:167-184),
continued: invoke the runner on the feed map, surface a missing output
slot as its own error, propagate a runner failure verbatim, and decode the
output buffer. -/
def runInference (inputName outputName : String) (runner : Runner)
    (row : List ℚ) : Except PredictError String :=
  match runner (feedsFor inputName row) with
  | .error msg => .error (.runnerFailure msg)
  | .ok outputs =>
    match outputs outputName with
    | none => .error (.missingOutput outputName)
    | some out => .ok (displayText out.data)

/-- The per-request core of `predict` (src/app.js:151-184), from the
assembled row: empty-input check, named-mode length check, optional
z-score (rejecting a length-mismatched scaler), then inference. -/
def predictRow (inputName outputName : String) (featureNames : List String)
    (scaler : Option Scaler) (runner : Runner) (row : List ℚ) :
    Except PredictError String :=
  if row.length = 0 then .error .emptyInput
  else if 0 < featureNames.length ∧ row.length ≠ featureNames.length then
    .error (.shapeMismatch featureNames.length row.length)
  else
    match scaler with
    | some s =>
      if s.mean.length ≠ row.length ∨ s.scale.length ≠ row.length then
        .error .scalerMismatch
      else runInference inputName outputName runner (zscoreRow row s.mean s.scale)
    | none => runInference inputName outputName runner row

/-- Model of the JavaScript `String.prototype.trim` builtin: strip
whitespace from both ends. -/
def jsTrim (s : String) : String :=
  String.mk
    (((s.data.dropWhile Char.isWhitespace).reverse.dropWhile
      Char.isWhitespace).reverse)

/-- Auxiliary for `jsSplitComma`: accumulate the current (reversed) token,
emitting it at every comma and at the end. -/
def splitCommaAux : List Char → List Char → List String
  | [], acc => [String.mk acc.reverse]
  | c :: rest, acc =>
    if c = ',' then String.mk acc.reverse :: splitCommaAux rest []
    else splitCommaAux rest (c :: acc)

/-- Model of the JavaScript `split(",")` builtin: split at every comma,
keeping empty tokens (`"a,".split(",")` is `["a", ""]`). -/
def jsSplitComma (s : String) : List String :=
  splitCommaAux s.data []

/-- Row assembly, `getRowValues` (src/app.js:128-143).  `parseQ` models the
`parseFloat` builtin (`none` for NaN); `fields` models the DOM state of the
per-feature number inputs, mapping an element id to the field's numeric
value (`none` for an empty field, which `parseFloat(value || "0")` turns
into `0`). -/
def getRowValues (parseQ : String → Option ℚ) (csv : String)
    (featureNames : List String) (fields : String → Option ℚ) : List ℚ :=
  let c := jsTrim csv
  if 0 < c.length then
    ((jsSplitComma c).map (fun s => parseQ (jsTrim s))).filterMap id
  else if 0 < featureNames.length then
    featureNames.map (fun n => (fields ("f_" ++ n)).getD 0)
  else []

/-- The comma-separated branch of `getRowValues` on its own:
`csv.split(",").map(s => parseFloat(s.trim())).filter(v => !Number.isNaN(v))`
(src/app.js:132). -/
def csvParsedRow (parseQ : String → Option ℚ) (csv : String) : List ℚ :=
  ((jsSplitComma (jsTrim csv)).map (fun s => parseQ (jsTrim s))).filterMap id

/-- A whole prediction request: row assembly followed by the per-request
core (src/app.js:145-184). -/
def predictReq (inputName outputName : String) (featureNames : List String)
    (scaler : Option Scaler) (runner : Runner)
    (parseQ : String → Option ℚ) (csv : String)
    (fields : String → Option ℚ) : Except PredictError String :=
  predictRow inputName outputName featureNames scaler runner
    (getRowValues parseQ csv featureNames fields)

/-- A concrete runner that echoes the input tensor under `OUTPUT_NAME`,
used to instantiate counterexamples and witnesses. -/
def echoRunner : Runner :=
  fun feeds => .ok (fun n => if n = OUTPUT_NAME then feeds INPUT_NAME else none)

/-- A concrete runner whose result set contains no output slot at all. -/
def noOutputRunner : Runner :=
  fun _ => .ok (fun _ => none)

/-- A concrete parse function for witnesses: reads the small integer
literals used in the examples, `none` (NaN) on anything else. -/
def demoParse : String → Option ℚ :=
  fun s => if s = "1" then some 1 else if s = "2" then some 2
    else if s = "3" then some 3 else none

/-! ### Helper lemmas -/

lemma digitChar_lt_16_ne_dot : ∀ m : ℕ, m < 16 → Nat.digitChar m ≠ '.' := by
  decide

lemma digitChar_mod10_ne_dot (k : ℕ) : Nat.digitChar (k % 10) ≠ '.' :=
  digitChar_lt_16_ne_dot _ (lt_trans (Nat.mod_lt _ (by decide)) (by decide))

lemma frac6_length (m : ℕ) : (frac6 m).length = 6 := rfl

lemma dot_not_mem_frac6 (m : ℕ) : '.' ∉ (frac6 m).data := by
  intro hmem
  simp only [frac6, List.mem_cons, List.not_mem_nil, or_false] at hmem
  rcases hmem with h | h | h | h | h | h <;>
    exact digitChar_mod10_ne_dot _ h.symm

lemma toFixed6_structure (x : ℚ) :
    ∃ p : String, ∃ m : ℕ, toFixed6 x = p ++ "." ++ frac6 m := by
  unfold toFixed6 toFixed6Abs
  by_cases hx : x < 0
  · rw [if_pos hx]
    exact ⟨"-" ++ toString (jsRound (-x * 1000000) / 1000000),
      (jsRound (-x * 1000000) % 1000000).toNat, by
        simp [String.append_assoc]⟩
  · rw [if_neg hx]
    exact ⟨toString (jsRound (x * 1000000) / 1000000),
      (jsRound (x * 1000000) % 1000000).toNat, rfl⟩

lemma str_eq_empty_of_length (s : String) (h : s.length = 0) : s = "" := by
  cases s with
  | mk l =>
    cases l with
    | nil => rfl
    | cons a t => simp [String.length] at h

lemma toFixed6_ne_empty (x : ℚ) : toFixed6 x ≠ "" := by
  obtain ⟨p, m, hx⟩ := toFixed6_structure x
  intro h
  have hlen := congrArg String.length h
  rw [hx] at h
  have := congrArg String.length h
  simp [String.length_append, frac6_length] at this

lemma joinSep_ne_empty (sep : String) (l : List String) (hne : l ≠ [])
    (hall : ∀ s ∈ l, s ≠ "") : joinSep sep l ≠ "" := by
  match l with
  | [a] => exact hall a (by simp)
  | a :: b :: t =>
    intro h
    have hlen := congrArg String.length h
    simp only [joinSep, String.length_append] at hlen
    have ha : a ≠ "" := hall a (by simp)
    have ha' : a.length ≠ 0 := fun hz => ha (str_eq_empty_of_length a hz)
    have : String.length "" = 0 := rfl
    omega

lemma decodeOutput_ne_empty (buf : List ℚ) (h : buf ≠ []) :
    decodeOutput buf ≠ "" := by
  apply joinSep_ne_empty
  · simpa using h
  · intro s hs
    simp only [List.mem_map] at hs
    obtain ⟨x, -, rfl⟩ := hs
    exact toFixed6_ne_empty x

/-! ### Claim theorems -/

/-- C1: Feature-schema resolution evaluates exactly one branch of the fixed
precedence — descriptor feature names when present and non-empty, else the
static name list when non-empty, else `f1`..`fN` for a positive integer
static count `N`, else the empty list — and it agrees with the
spec-worded `featureSchemaSpec` on every input.  The synthesized names are
exactly `N` many, the `i`-th being `f(i+1)`, so they are in strictly
increasing index order.  The result is a total `List String`, never null. -/
theorem featureSchema_precedence (meta : Option Meta) (cfgNames : List String)
    (cfgCount : ℚ) :
    resolveFeatureNames meta cfgNames cfgCount =
      featureSchemaSpec (descNames meta) cfgNames cfgCount ∧
    ∀ n : ℕ, (synthNames n).length = n ∧
      ∀ i : ℕ, i < n → (synthNames n).getD i "" = "f" ++ toString (i + 1) := by
  constructor
  · cases h : descNames meta <;>
      simp [resolveFeatureNames, featureSchemaSpec, h, List.length_pos]
  · intro n
    constructor
    · simp [synthNames]
    · intro i hi
      have hlen : i < (synthNames n).length := by simp [synthNames, hi]
      rw [List.getD_eq_getElem _ _ hlen]
      simp [synthNames]

/-- Witness for C1 at a concrete input: no descriptor, no static names,
static count 3. -/
theorem featureSchema_precedence_witness :
    resolveFeatureNames none [] (3 : ℚ) = featureSchemaSpec none [] 3 ∧
    (synthNames 3).getD 1 "" = "f" ++ toString (1 + 1) := by
  have h := featureSchema_precedence none [] 3
  exact ⟨h.1, (h.2 3).2 1 (by decide)⟩

/-- C2: For matching-length parameters the preprocessed vector has the
input's length and satisfies `output[i] = (input[i] - center[i]) / scale[i]`
elementwise; with no scaler the row reaches the inference stage
unchanged. -/
theorem preprocessor_zscore (values mean scale : List ℚ)
    (hm : mean.length = values.length) (hs : scale.length = values.length) :
    (zscoreRow values mean scale).length = values.length ∧
    (∀ i : ℕ, i < values.length →
      (zscoreRow values mean scale).getD i 0 =
        (values.getD i 0 - mean.getD i 0) / scale.getD i 0) ∧
    ∀ (inputName outputName : String) (featureNames : List String)
      (runner : Runner) (row : List ℚ),
      row.length ≠ 0 →
      (0 < featureNames.length → row.length = featureNames.length) →
      predictRow inputName outputName featureNames none runner row =
        runInference inputName outputName runner row := by
  refine ⟨by simp [zscoreRow], ?_, ?_⟩
  · intro i hi
    have hlen : i < (zscoreRow values mean scale).length := by
      simp [zscoreRow, hi]
    rw [List.getD_eq_getElem _ _ hlen, List.getD_eq_getElem _ _ hi]
    simp [zscoreRow]
  · intro inputName outputName featureNames runner row h0 hfit
    have h2 : ¬(0 < featureNames.length ∧ row.length ≠ featureNames.length) := by
      rintro ⟨hpos, hne⟩
      exact hne (hfit hpos)
    simp [predictRow, h0, h2]

/-- Witness for C2 at the spec's own scenario: input `[3, 5]`,
center `[1, 1]`, scale `[2, 2]`. -/
theorem preprocessor_zscore_witness :
    (zscoreRow [3, 5] [1, 1] [2, 2]).getD 0 0 = ((3 : ℚ) - 1) / 2 ∧
    predictRow INPUT_NAME OUTPUT_NAME [] none echoRunner [(1 : ℚ)] =
      runInference INPUT_NAME OUTPUT_NAME echoRunner [1] := by
  have h := preprocessor_zscore [3, 5] [1, 1] [2, 2] (by decide) (by decide)
  refine ⟨?_, h.2.2 INPUT_NAME OUTPUT_NAME [] echoRunner [1] (by decide) (by decide)⟩
  have := h.2.1 0 (by decide)
  simpa using this

/-- C3 counterexample: with the assembled input vector empty (length 0) and
a present scaler whose parameter lengths (1) differ from it, the request is
rejected with `EmptyInput`, not with a ShapeMismatch-classified error — the
empty-input check at src/app.js:152 runs before the scaler check at
src/app.js:161. -/
theorem scaler_mismatch_empty_precedence_cex :
    predictRow INPUT_NAME OUTPUT_NAME [] (some ⟨[0], [1]⟩) echoRunner [] =
      .error .emptyInput ∧
    PredictError.emptyInput.isShapeMismatch = false := ⟨rfl, rfl⟩

/-- C3 as amended: for every prediction request with a NON-EMPTY input
vector where the scaler is present but its center or scale length differs
from the vector's length, the request is rejected with a
ShapeMismatch-classified error for every runner (so the runner is never
invoked and normalization is never silently skipped or truncated); an
empty vector is instead rejected by the earlier `EmptyInput` check. -/
theorem scaler_mismatch_rejected (inputName outputName : String)
    (featureNames : List String) (s : Scaler) (runner : Runner)
    (row : List ℚ) (h0 : row ≠ [])
    (hmis : s.mean.length ≠ row.length ∨ s.scale.length ≠ row.length) :
    ∃ e : PredictError,
      predictRow inputName outputName featureNames (some s) runner row =
        .error e ∧ e.isShapeMismatch = true := by
  have h0' : ¬row.length = 0 := by simpa [List.length_eq_zero] using h0
  by_cases h2 : 0 < featureNames.length ∧ row.length ≠ featureNames.length
  · exact ⟨.shapeMismatch featureNames.length row.length,
      by simp [predictRow, h0', h2], rfl⟩
  · exact ⟨.scalerMismatch, by simp [predictRow, h0', h2, hmis], rfl⟩

/-- Witness for C3's amended theorem: row `[1]` against a scaler whose
parameter arrays have length 2. -/
theorem scaler_mismatch_rejected_witness :
    ∃ e : PredictError,
      predictRow INPUT_NAME OUTPUT_NAME [] (some ⟨[0, 0], [1, 1]⟩) echoRunner
        [(1 : ℚ)] = .error e ∧ e.isShapeMismatch = true :=
  scaler_mismatch_rejected INPUT_NAME OUTPUT_NAME [] ⟨[0, 0], [1, 1]⟩
    echoRunner [(1 : ℚ)] (by simp) (by decide)

/-- C4 counterexample: with a non-empty row `[1]` and a present scaler
whose parameters have length 2 (length-invalid against n = 1), the code
raises the scaler-length error (src/app.js:162-163) instead of passing the
raw vector through with no error, as the claim states. -/
theorem scaler_passthrough_cex :
    predictRow INPUT_NAME OUTPUT_NAME [] (some ⟨[0, 0], [1, 1]⟩) echoRunner
      [(1 : ℚ)] = .error .scalerMismatch := rfl

/-- C4 as amended: preprocessing is applied only when the scaler is present
and length-valid; when the scaler is ABSENT the raw vector passes through
to inference unchanged, but when the scaler is present and length-invalid
the request is rejected with an error (for every runner) rather than
passed through. -/
theorem preprocess_noop_only_when_absent (inputName outputName : String)
    (featureNames : List String) (runner : Runner) (row : List ℚ)
    (h0 : row ≠ [])
    (hfit : 0 < featureNames.length → row.length = featureNames.length) :
    predictRow inputName outputName featureNames none runner row =
      runInference inputName outputName runner row ∧
    ∀ s : Scaler, s.mean.length ≠ row.length ∨ s.scale.length ≠ row.length →
      ∃ e : PredictError,
        predictRow inputName outputName featureNames (some s) runner row =
          .error e := by
  have h0' : ¬row.length = 0 := by simpa [List.length_eq_zero] using h0
  have h2 : ¬(0 < featureNames.length ∧ row.length ≠ featureNames.length) := by
    rintro ⟨hpos, hne⟩
    exact hne (hfit hpos)
  refine ⟨by simp [predictRow, h0', h2], ?_⟩
  intro s hmis
  exact ⟨.scalerMismatch, by simp [predictRow, h0', h2, hmis]⟩

/-- Witness for C4's amended theorem: free-form mode, row `[1]`, passthrough
with no scaler and rejection with a length-2 scaler. -/
theorem preprocess_noop_only_when_absent_witness :
    predictRow INPUT_NAME OUTPUT_NAME [] none echoRunner [(1 : ℚ)] =
      runInference INPUT_NAME OUTPUT_NAME echoRunner [1] ∧
    ∃ e : PredictError,
      predictRow INPUT_NAME OUTPUT_NAME [] (some ⟨[0, 0], [1, 1]⟩) echoRunner
        [(1 : ℚ)] = .error e := by
  have h := preprocess_noop_only_when_absent INPUT_NAME OUTPUT_NAME []
    echoRunner [(1 : ℚ)] (by simp) (by decide)
  exact ⟨h.1, h.2 ⟨[0, 0], [1, 1]⟩ (by decide)⟩

/-- C5 counterexample: a real request in named mode (schema length 3) whose
quick-paste string `"zz"` parses to an empty row: the input vector's length
0 differs from the schema length 3, yet the raised error is `EmptyInput`
(src/app.js:152), not a ShapeMismatch naming the lengths. -/
theorem named_mode_empty_precedence_cex :
    predictReq INPUT_NAME OUTPUT_NAME ["a", "b", "c"] none echoRunner
      demoParse "zz" (fun _ => none) = .error .emptyInput ∧
    PredictError.emptyInput ≠ .shapeMismatch 3 0 := ⟨rfl, by decide⟩

/-- C5 as amended: for every prediction request in named mode whose
NON-EMPTY input vector's length differs from the schema length, a
ShapeMismatch error naming the expected and actual lengths is raised, for
every runner and scaler (so before the model runner is invoked); an empty
vector is instead rejected by the earlier `EmptyInput` check. -/
theorem named_mode_shape_mismatch (inputName outputName : String)
    (featureNames : List String) (scaler : Option Scaler) (runner : Runner)
    (row : List ℚ) (hn : featureNames ≠ []) (h0 : row ≠ [])
    (hlen : row.length ≠ featureNames.length) :
    predictRow inputName outputName featureNames scaler runner row =
      .error (.shapeMismatch featureNames.length row.length) ∧
    errorMessage (.shapeMismatch featureNames.length row.length) =
      "Expected " ++ toString featureNames.length ++ " features, got " ++
        toString row.length ++ "." := by
  have h0' : ¬row.length = 0 := by simpa [List.length_eq_zero] using h0
  have h2 : 0 < featureNames.length ∧ row.length ≠ featureNames.length :=
    ⟨List.length_pos.mpr hn, hlen⟩
  exact ⟨by simp [predictRow, h0', h2], rfl⟩

/-- Witness for C5's amended theorem at the spec's scenario: schema length
3, input vector length 2. -/
theorem named_mode_shape_mismatch_witness :
    predictRow INPUT_NAME OUTPUT_NAME ["a", "b", "c"] none echoRunner
      [(1 : ℚ), 2] = .error (.shapeMismatch 3 2) ∧
    errorMessage (.shapeMismatch 3 2) =
      "Expected " ++ toString 3 ++ " features, got " ++ toString 2 ++ "." := by
  have h := named_mode_shape_mismatch INPUT_NAME OUTPUT_NAME ["a", "b", "c"]
    none echoRunner [(1 : ℚ), 2] (by simp) (by simp) (by decide)
  exact ⟨h.1, h.2⟩

/-- C6: A request whose assembled input vector has length zero is rejected
with `EmptyInput` for every schema, scaler and runner — that is, before the
preprocessing branch is consulted and before the model runner could be
invoked (src/app.js:152 runs first). -/
theorem empty_input_rejected (inputName outputName : String)
    (featureNames : List String) (scaler : Option Scaler) (runner : Runner) :
    predictRow inputName outputName featureNames scaler runner [] =
      .error .emptyInput ∧
    errorMessage .emptyInput = "No input values provided." :=
  ⟨rfl, rfl⟩

/-- C7: When the runner succeeds but its result set lacks the configured
output slot name, inference fails with `MissingOutput` naming that slot; a
`MissingOutput` error is distinct from every `RunnerFailure`, and a runner
failure propagates with its message verbatim. -/
theorem missing_output_distinct (inputName outputName : String)
    (runner : Runner) (row : List ℚ) :
    (∀ outs : String → Option Tensor,
      runner (feedsFor inputName row) = .ok outs → outs outputName = none →
        runInference inputName outputName runner row =
          .error (.missingOutput outputName)) ∧
    (∀ msg : String, PredictError.missingOutput outputName ≠
      .runnerFailure msg) ∧
    errorMessage (.missingOutput outputName) =
      "Output named \"" ++ outputName ++ "\" not found. Check OUTPUT_NAME." ∧
    (∀ msg : String, runner (feedsFor inputName row) = .error msg →
      runInference inputName outputName runner row =
        .error (.runnerFailure msg) ∧
      errorMessage (.runnerFailure msg) = msg) := by
  refine ⟨?_, fun msg => by simp, rfl, ?_⟩
  · intro outs hok hmiss
    simp [runInference, hok, hmiss]
  · intro msg herr
    exact ⟨by simp [runInference, herr], rfl⟩

/-- Witness for C7: the no-output runner on row `[1]`. -/
theorem missing_output_distinct_witness :
    runInference INPUT_NAME OUTPUT_NAME noOutputRunner [(1 : ℚ)] =
      .error (.missingOutput OUTPUT_NAME) ∧
    PredictError.missingOutput OUTPUT_NAME ≠ .runnerFailure "boom" := by
  have h := missing_output_distinct INPUT_NAME OUTPUT_NAME noOutputRunner
    [(1 : ℚ)]
  exact ⟨h.1 (fun _ => none) rfl rfl, h.2.1 "boom"⟩

/-- C8: For every non-empty output buffer the displayed decode is each
value rendered by `toFixed6`, joined in the buffer's original order by the
separator `", "`; every rendered value consists of a prefix, a dot, and an
exactly-six-character fractional block containing no further dot.  The
decode is a pure function of the buffer, hence deterministic. -/
theorem result_decoder_format (buf : List ℚ) (h : buf ≠ []) :
    displayText buf = joinSep ", " (buf.map toFixed6) ∧
    (∀ x : ℚ, ∃ p : String, ∃ m : ℕ,
      toFixed6 x = p ++ "." ++ frac6 m ∧ (frac6 m).length = 6 ∧
      '.' ∉ (frac6 m).data) ∧
    ∀ buf' : List ℚ, buf = buf' → displayText buf = displayText buf' := by
  refine ⟨?_, ?_, fun buf' hb => by rw [hb]⟩
  · unfold displayText
    rw [if_neg (decodeOutput_ne_empty buf h)]
    rfl
  · intro x
    obtain ⟨p, m, hx⟩ := toFixed6_structure x
    exact ⟨p, m, hx, frac6_length m, dot_not_mem_frac6 m⟩

/-- Witness for C8 at the buffer `[3/2, 2]`. -/
theorem result_decoder_format_witness :
    displayText [(3 : ℚ)/2, 2] =
      joinSep ", " ([(3 : ℚ)/2, 2].map toFixed6) ∧
    ∃ p : String, ∃ m : ℕ,
      toFixed6 ((3 : ℚ)/2) = p ++ "." ++ frac6 m ∧ (frac6 m).length = 6 := by
  have h := result_decoder_format [(3 : ℚ)/2, 2] (by simp)
  obtain ⟨p, m, hx, hl, -⟩ := h.2.1 ((3 : ℚ)/2)
  exact ⟨h.1, p, m, hx, hl⟩

/-- C9: The empty output buffer decodes to the sentinel placeholder `"—"`,
which is not the empty string, and no non-empty buffer decodes to the
empty string, so the display always distinguishes an empty result from no
result. -/
theorem result_decoder_sentinel :
    displayText [] = "—" ∧ ("—" : String) ≠ "" ∧
    ∀ buf : List ℚ, buf ≠ [] → displayText buf ≠ "" := by
  refine ⟨rfl, by decide, ?_⟩
  intro buf h
  unfold displayText
  rw [if_neg (decodeOutput_ne_empty buf h)]
  exact decodeOutput_ne_empty buf h

/-- Witness for C9's quantified part at the buffer `[0]`. -/
theorem result_decoder_sentinel_witness :
    displayText [(0 : ℚ)] ≠ "" :=
  result_decoder_sentinel.2.2 [(0 : ℚ)] (by simp)

/-- C10: When the trimmed quick-paste string is non-empty it alone
determines the input vector — the result is its parsed token list,
independent of the per-feature field values; only when it is empty (and
the schema is non-empty) are the per-feature fields read, one per schema
name, in schema order. -/
theorem getRowValues_precedence (parseQ : String → Option ℚ) (csv : String)
    (featureNames : List String) (fields fields2 : String → Option ℚ) :
    (0 < (jsTrim csv).length →
      getRowValues parseQ csv featureNames fields = csvParsedRow parseQ csv ∧
      getRowValues parseQ csv featureNames fields =
        getRowValues parseQ csv featureNames fields2) ∧
    ((jsTrim csv).length = 0 → 0 < featureNames.length →
      getRowValues parseQ csv featureNames fields =
        featureNames.map (fun n => (fields ("f_" ++ n)).getD 0)) := by
  constructor
  · intro hc
    exact ⟨by simp [getRowValues, csvParsedRow, hc],
      by simp [getRowValues, hc]⟩
  · intro hc hn
    have hc' : ¬0 < (jsTrim csv).length := by omega
    simp [getRowValues, hc', hn]

/-- Witness for C10: quick-paste `" 1, 2 "` wins over two different field
states; empty quick-paste reads the fields in schema order. -/
theorem getRowValues_precedence_witness :
    (getRowValues demoParse " 1, 2 " ["a", "b"] (fun _ => some 9) =
      csvParsedRow demoParse " 1, 2 " ∧
    getRowValues demoParse " 1, 2 " ["a", "b"] (fun _ => some 9) =
      getRowValues demoParse " 1, 2 " ["a", "b"] (fun _ => none)) ∧
    getRowValues demoParse "" ["a", "b"] (fun _ => some 9) =
      ["a", "b"].map (fun n => ((fun _ => some (9 : ℚ)) ("f_" ++ n)).getD 0) := by
  have h := getRowValues_precedence demoParse " 1, 2 " ["a", "b"]
    (fun _ => some 9) (fun _ => none)
  have h2 := getRowValues_precedence demoParse "" ["a", "b"]
    (fun _ => some (9 : ℚ)) (fun _ => none)
  exact ⟨h.1 (by decide), h2.2 (by decide) (by decide)⟩
